import Mathlib

/-!
# debugger-demo: a shallow embedding of `debugger.c`

`debugger.c` drives a traced child process through `fork`, `waitpid` and
`ptrace`.  The embedding passes an explicit `World` through every function of
the source.  The world holds the traced process as the kernel exposes it to
`ptrace` (byte-addressed memory and the register file), the outcomes of the
future `waitpid` calls, and logs of what the debugger did: the system calls it
issued, what it printed on stdout, and what it handed to `perror`.

Machine integers are natural numbers reduced modulo `2^64` where the C code can
overflow.  A function that can block forever in `waitpid` returns `Option`.
A local variable the C code leaves uninitialised starts with a value taken from
the world.
-/

set_option autoImplicit false

namespace Debugger

/-! ## Machine words -/

/-- The C conversion of a `long` to `uint64_t`. -/
def toU64 (x : Int) : Nat := (x % (2 ^ 64 : Int)).toNat

/-- The C reading of a 64-bit pattern as a `long` (two's complement). -/
def toLong (n : Nat) : Int :=
  if n % 2 ^ 64 < 2 ^ 63 then ((n % 2 ^ 64 : Nat) : Int) else ((n % 2 ^ 64 : Nat) : Int) - 2 ^ 64

/-! ## The traced process -/

/-- The register file `struct user_regs_struct` of `<sys/user.h>` on x86-64,
each field an `unsigned long long`. -/
structure Regs where
  r15 : Nat := 0
  r14 : Nat := 0
  r13 : Nat := 0
  r12 : Nat := 0
  rbp : Nat := 0
  rbx : Nat := 0
  r11 : Nat := 0
  r10 : Nat := 0
  r9 : Nat := 0
  r8 : Nat := 0
  rax : Nat := 0
  rcx : Nat := 0
  rdx : Nat := 0
  rsi : Nat := 0
  rdi : Nat := 0
  orig_rax : Nat := 0
  rip : Nat := 0
  cs : Nat := 0
  eflags : Nat := 0
  rsp : Nat := 0
  ss : Nat := 0
  fs_base : Nat := 0
  gs_base : Nat := 0
  ds : Nat := 0
  es : Nat := 0
  fs : Nat := 0
  gs : Nat := 0
  deriving DecidableEq, Repr

/-- One byte of the traced process's memory. -/
abbrev Byte := Fin 256

/-- The address space of the traced process: the byte at each address, `none`
where nothing is mapped. -/
abbrev Memory := Nat → Option Byte

/-- A traced process sitting in a ptrace-stop. -/
structure Tracee where
  pid : Int
  mem : Memory
  regs : Regs

/-- The 64-bit little-endian word made of the eight bytes at `a .. a+7`, as
`PTRACE_PEEKDATA` transfers it; `none` when one of the bytes is unmapped. -/
def readWord (m : Memory) (a : Nat) : Option Nat :=
  match m a, m (a + 1), m (a + 2), m (a + 3), m (a + 4), m (a + 5), m (a + 6), m (a + 7) with
  | some b0, some b1, some b2, some b3, some b4, some b5, some b6, some b7 =>
    some (b0.val + 256 * (b1.val + 256 * (b2.val + 256 * (b3.val + 256 * (b4.val
      + 256 * (b5.val + 256 * (b6.val + 256 * b7.val)))))))
  | _, _, _, _, _, _, _, _ => none

/-- Byte number `i` (little-endian) of the word `v`. -/
def byteOf (v i : Nat) : Byte := Fin.ofNat (v / 256 ^ i)

/-- The memory after the eight bytes at `a .. a+7` are overwritten with the
word `v`, as `PTRACE_POKEDATA` transfers it. -/
def writeWord (m : Memory) (a : Nat) (v : Nat) : Memory :=
  fun x => if a ≤ x ∧ x < a + 8 then some (byteOf v (x - a)) else m x

/-! ## The world around the debugger -/

/-- A system call issued by the debugger, with its arguments. -/
inductive Call where
  | fork
  | traceme
  | execl
  | waitpid (pid : Int)
  | cont (pid : Int)
  | singlestep (pid : Int)
  | peekdata (pid : Int) (addr : Nat)
  | pokedata (pid : Int) (addr : Nat) (data : Nat)
  | getregs (pid : Int)
  | setregs (pid : Int) (regs : Regs)
  deriving DecidableEq, Repr

/-- The outcome of one `waitpid` call: the status it stores, as the bit pattern
of the `int` (`none` when the call fails and stores nothing), and what the
traced process has become by the time the call returns, given what it was when
the debugger last touched it (`none` stands for no process in a ptrace-stop). -/
structure WaitOutcome where
  status : Option Nat
  run : Option Tracee → Option Tracee

/-- The state threaded through the debugger. -/
structure World where
  /-- the traced process, when one is in a ptrace-stop -/
  tracee : Option Tracee
  /-- what the coming `waitpid` calls will report, in order; when the list is
  used up the next `waitpid` never returns -/
  script : List WaitOutcome
  /-- the value `fork` returns -/
  fork_ret : Int := 1
  /-- whether `execl` fails in the child (when it succeeds it does not return) -/
  execl_fails : Bool := false
  /-- the indeterminate initial content of the local `int status`, as a bit
  pattern -/
  uninit_status : Nat := 0
  /-- the indeterminate initial content of the local `struct user_regs_struct regs` -/
  uninit_regs : Regs := {}
  /-- the system calls issued so far, oldest first -/
  trace : List Call := []
  /-- the strings written with `printf`, oldest first -/
  out : List String := []
  /-- the messages handed to `perror`, oldest first -/
  err : List String := []

/-- Record a system call in the trace. -/
def World.log (w : World) (c : Call) : World := { w with trace := w.trace ++ [c] }

/-- The C library `printf`, with the text already formatted. -/
def printf (s : String) (w : World) : World := { w with out := w.out ++ [s] }

/-- The C library `perror`. -/
def perror (s : String) (w : World) : World := { w with err := w.err ++ [s] }

/-- The traced process a `ptrace` request on `pid` acts on: it must exist, be
stopped, and have that process id. -/
def World.target (w : World) (pid : Int) : Option Tracee :=
  match w.tracee with
  | some t => if t.pid = pid then some t else none
  | none => none

/-- The call `ptrace(PTRACE_PEEKDATA, pid, addr, NULL)`: the word at `addr` as a
`long`, or `-1` on failure. -/
def ptrace_peekdata (pid : Int) (addr : Nat) (w : World) : Int × World :=
  let w1 := w.log (.peekdata pid addr)
  match w.target pid with
  | some t =>
    match readWord t.mem addr with
    | some v => (toLong v, w1)
    | none => (-1, w1)
  | none => (-1, w1)

/-- The call `ptrace(PTRACE_POKEDATA, pid, addr, data)`: `0` on success, `-1` on
failure. -/
def ptrace_pokedata (pid : Int) (addr : Nat) (data : Nat) (w : World) : Int × World :=
  let w1 := w.log (.pokedata pid addr data)
  match w.target pid with
  | some t =>
    match readWord t.mem addr with
    | some _ => (0, { w1 with tracee := some { t with mem := writeWord t.mem addr data } })
    | none => (-1, w1)
  | none => (-1, w1)

/-- The call `ptrace(PTRACE_GETREGS, pid, NULL, &regs)`: the return value and
the content of `regs` afterwards, which is left as it was on failure. -/
def ptrace_getregs (pid : Int) (regs : Regs) (w : World) : Int × Regs × World :=
  let w1 := w.log (.getregs pid)
  match w.target pid with
  | some t => (0, t.regs, w1)
  | none => (-1, regs, w1)

/-- The call `ptrace(PTRACE_SETREGS, pid, NULL, &regs)`. -/
def ptrace_setregs (pid : Int) (regs : Regs) (w : World) : Int × World :=
  let w1 := w.log (.setregs pid regs)
  match w.target pid with
  | some t => (0, { w1 with tracee := some { t with regs := regs } })
  | none => (-1, w1)

/-- The call `ptrace(PTRACE_CONT, pid, NULL, NULL)`.  What the resumed process
does shows at the next `waitpid`. -/
def ptrace_cont (pid : Int) (w : World) : Int × World :=
  let w1 := w.log (.cont pid)
  match w.target pid with
  | some _ => (0, w1)
  | none => (-1, w1)

/-- The call `ptrace(PTRACE_SINGLESTEP, pid, NULL, NULL)`. -/
def ptrace_singlestep (pid : Int) (w : World) : Int × World :=
  let w1 := w.log (.singlestep pid)
  match w.target pid with
  | some _ => (0, w1)
  | none => (-1, w1)

/-! ## The wait-status macros of `<sys/wait.h>` (glibc, Linux) -/

/-- The macro `WIFSTOPPED(status)`. -/
def WIFSTOPPED (status : Nat) : Bool := (status &&& 0xff) == 0x7f

/-- The macro `WSTOPSIG(status)`. -/
def WSTOPSIG (status : Nat) : Nat := (status &&& 0xff00) >>> 8

/-- The macro `WIFEXITED(status)`. -/
def WIFEXITED (status : Nat) : Bool := (status &&& 0x7f) == 0

/-- The signal number of `SIGTRAP` on Linux/x86-64. -/
def SIGTRAP : Nat := 5

/-- The signal number of `SIGSTOP` on Linux/x86-64. -/
def SIGSTOP : Nat := 19

/-! ## `debugger.c` -/

/-- The address `STACK_LOAD` hard-coded in `debugger.c`. -/
def STACK_LOAD : Nat := 0x4018a7

/-- The C operator `~` on a `uint64_t`. -/
def not64 (x : Nat) : Nat := 2 ^ 64 - 1 - x % 2 ^ 64

/-- The `printf` conversions `%x`, `%lx` and `%llx`. -/
def hex (n : Nat) : String := String.mk (Nat.toDigits 16 n)

/-- The loop of `wait_for_target`, run on the outcomes of the coming `waitpid`
calls, with the current content of the local `status`. -/
def wait_loop (pid : Int) : List WaitOutcome → Nat → World → Option World
  | [], _, _ => none
  | o :: rest, status, w =>
    let status := o.status.getD status
    let w := { w.log (.waitpid pid) with tracee := o.run w.tracee, script := rest }
    if WIFSTOPPED status then
      if WSTOPSIG status ≠ SIGTRAP ∧ WSTOPSIG status ≠ SIGSTOP then
        some (printf ("target stopped due to signal: " ++ toString (WSTOPSIG status) ++ "\n") w)
      else
        some w
    else if WIFEXITED status then
      some (printf "target exited\n" w)
    else
      wait_loop pid rest status w

/-- The function `wait_for_target`; `none` when it never returns. -/
def wait_for_target (pid : Int) (w : World) : Option World :=
  wait_loop pid w.script w.uninit_status w

/-- The function `continue_on`. -/
def continue_on (pid : Int) (w : World) : Option World :=
  let p := ptrace_cont pid w
  let w := if p.1 < 0 then perror "ptrace continue" p.2 else p.2
  wait_for_target pid w

/-- The function `single_step`. -/
def single_step (pid : Int) (w : World) : Option World :=
  let p := ptrace_singlestep pid w
  let w := if p.1 < 0 then perror "ptrace singlestep" p.2 else p.2
  wait_for_target pid w

/-- The function `set_breakpoint`: its return value and the world afterwards. -/
def set_breakpoint (pid : Int) (addr : Nat) (w : World) : Nat × World :=
  let p := ptrace_peekdata pid addr w
  let orig_instruction := toU64 p.1
  let orig_upper_bytes := orig_instruction &&& not64 0xff
  let q := ptrace_pokedata pid addr (orig_upper_bytes ||| 0xcc) p.2
  let w := if q.1 < 0 then perror "ptrace pokedata" q.2 else q.2
  (orig_instruction, w)

/-- The function `rewind_rip`. -/
def rewind_rip (pid : Int) (w : World) : World :=
  let g := ptrace_getregs pid w.uninit_regs w
  let regs := g.2.1
  let w := if g.1 < 0 then perror "ptrace getregs" g.2.2 else g.2.2
  let w := printf ("%rip in target is 0x" ++ hex regs.rip ++ " but we want it to be 0x"
    ++ hex STACK_LOAD ++ "\n") w
  let regs := { regs with rip := (regs.rip + (2 ^ 64 - 1)) % 2 ^ 64 }
  let s := ptrace_setregs pid regs w
  if s.1 < 0 then perror "ptrace setregs" s.2 else s.2

/-- The function `set_x_in_target`. -/
def set_x_in_target (pid : Int) (newval : Nat) (w : World) : World :=
  let g := ptrace_getregs pid w.uninit_regs w
  let regs := g.2.1
  let w := if g.1 < 0 then perror "ptrace getregs" g.2.2 else g.2.2
  let addr := (regs.rbp + (2 ^ 64 - 4)) % 2 ^ 64
  let p := ptrace_peekdata pid addr w
  let x_in_stack := toU64 p.1
  let w := printf ("Checking: *(%rbp-4): " ++ toString (x_in_stack &&& 0xffffffff) ++ "\n") p.2
  let x_in_stack := x_in_stack &&& not64 0xffffffff
  let x_in_stack := x_in_stack ||| (newval % 2 ^ 32)
  let q := ptrace_pokedata pid addr x_in_stack w
  let w := if q.1 < 0 then perror "ptrace pokedata" q.2 else q.2
  let p := ptrace_peekdata pid addr w
  let x_in_stack := toU64 p.1
  printf ("Checking: *(%rbp-4): " ++ toString (x_in_stack &&& 0xffffffff) ++ "\n") p.2

/-- The restore step of `preserve_brkpoint_and_continue`: the first
`PTRACE_POKEDATA`, which writes the saved word back. -/
def restore_original (pid : Int) (addr : Nat) (orig_inst : Nat) (w : World) : World :=
  let q := ptrace_pokedata pid addr orig_inst w
  if q.1 < 0 then perror "ptrace pokedata" q.2 else q.2

/-- The function `preserve_brkpoint_and_continue`; `none` when it never
returns. -/
def preserve_brkpoint_and_continue (pid : Int) (addr : Nat) (orig_inst : Nat) (w : World) :
    Option World :=
  let w := restore_original pid addr orig_inst w
  let w := rewind_rip pid w
  match single_step pid w with
  | none => none
  | some w =>
    let w := (set_breakpoint pid addr w).2
    continue_on pid w

/-- The name of the request a system call makes, without its arguments. -/
def Call.request : Call → String
  | .fork => "fork"
  | .traceme => "PTRACE_TRACEME"
  | .execl => "execl"
  | .waitpid _ => "waitpid"
  | .cont _ => "PTRACE_CONT"
  | .singlestep _ => "PTRACE_SINGLESTEP"
  | .peekdata _ _ => "PTRACE_PEEKDATA"
  | .pokedata _ _ _ => "PTRACE_POKEDATA"
  | .getregs _ => "PTRACE_GETREGS"
  | .setregs _ _ => "PTRACE_SETREGS"

/-- What `wait_for_target` prints for a status on which it returns. -/
def waitReport (status : Nat) : List String :=
  if WIFSTOPPED status then
    if WSTOPSIG status ≠ SIGTRAP ∧ WSTOPSIG status ≠ SIGSTOP then
      ["target stopped due to signal: " ++ toString (WSTOPSIG status) ++ "\n"]
    else []
  else ["target exited\n"]

/-- The statuses on which the loop of `wait_for_target` breaks. -/
def breaksLoop (status : Nat) : Bool := WIFSTOPPED status || WIFEXITED status

/-! ## A concrete session -/

/-- The memory of the example target: eight bytes of code at `STACK_LOAD`
(`mov -0x4(%rbp),%eax` and what follows), eight bytes of stack at `rbp - 4`
holding `x = 10`, and nothing else. -/
def demoMem : Memory := fun x =>
  if 0x4018a7 ≤ x ∧ x < 0x4018af then
    some (Fin.ofNat ([0x8b, 0x45, 0xfc, 0x89, 0xc2, 0x48, 0x8b, 0x45].getD (x - 0x4018a7) 0))
  else if 0x7ffd0ffc ≤ x ∧ x < 0x7ffd1004 then
    some (if x = 0x7ffd0ffc then 0x0a else 0)
  else none

/-- The example target, process 7, stopped right after the trap at
`STACK_LOAD` fired. -/
def demoTracee : Tracee :=
  { pid := 7, mem := demoMem, regs := { rip := 0x4018a8, rbp := 0x7ffd1000, rsp := 0x7ffd0fe0 } }

/-- The status `waitpid` stores for a process stopped by `SIGTRAP`. -/
def statusTrap : Nat := 0x057f

/-- The status `waitpid` stores for a process that exited with code 0. -/
def statusExit0 : Nat := 0

/-- The traced process stops with `SIGTRAP`, its instruction pointer at `rip`
and everything else as the debugger left it. -/
def trapAt (rip : Nat) : WaitOutcome :=
  ⟨some statusTrap, fun t => t.map fun t => { t with regs := { t.regs with rip := rip } }⟩

/-- The traced process runs to the end and exits with code 0. -/
def exits : WaitOutcome := ⟨some statusExit0, fun _ => none⟩

/-- A world in which the example target is stopped at the breakpoint; the
single step takes it past the three-byte instruction at `STACK_LOAD`, and
resumed again it exits. -/
def demoWorld : World :=
  { tracee := some demoTracee
    script := [trapAt (STACK_LOAD + 3), exits] }

/-- The example target stopped at the breakpoint with the trap byte in place at
`STACK_LOAD`; the script is that of `demoWorld`. -/
def armedWorld : World :=
  { tracee := some { demoTracee with mem := writeWord demoMem STACK_LOAD 0x458b48c289fc45cc }
    script := [trapAt (STACK_LOAD + 3), exits] }

/-- A world in which the traced process exits before its first stop. -/
def exitedWorld : World :=
  { tracee := none
    fork_ret := 7
    script := [exits] }

theorem toU64_toLong (v : Nat) (h : v < 2 ^ 64) : toU64 (toLong v) = v := by
  unfold toU64 toLong
  rw [Nat.mod_eq_of_lt h]
  split <;> omega

theorem toU64_lt (x : Int) : toU64 x < 2 ^ 64 := by
  unfold toU64
  omega

theorem toU64_neg_one : toU64 (-1) = 2 ^ 64 - 1 := by
  decide

theorem readWord_lt {m : Memory} {a v : Nat} (h : readWord m a = some v) : v < 2 ^ 64 := by
  unfold readWord at h
  split at h
  · injection h with h
    omega
  · exact absurd h (by simp)

theorem not64_mask (k : Nat) (hk : k ≤ 64) : not64 (2 ^ k - 1) = (2 ^ (64 - k) - 1) <<< k := by
  unfold not64
  have h1 : 2 ^ k ≤ 2 ^ 64 := Nat.pow_le_pow_right (by norm_num) hk
  have h2 : 0 < 2 ^ k := Nat.two_pow_pos k
  have h3 : 2 ^ (64 - k) * 2 ^ k = 2 ^ 64 := by rw [← Nat.pow_add]; congr 1; omega
  rw [Nat.mod_eq_of_lt (by omega), Nat.shiftLeft_eq, Nat.sub_mul, h3]
  omega

theorem mask_or (k w v : Nat) (hk : k ≤ 64) (hv : v < 2 ^ k) :
    (w % 2 ^ 64 &&& not64 (2 ^ k - 1)) ||| v = w % 2 ^ 64 / 2 ^ k * 2 ^ k + v := by
  have hx : w % 2 ^ 64 < 2 ^ 64 := Nat.mod_lt _ (by norm_num)
  generalize w % 2 ^ 64 = x at hx
  rw [not64_mask k hk, Nat.mul_comm (x / 2 ^ k)]
  apply Nat.eq_of_testBit_eq
  intro i
  rw [Nat.testBit_mul_pow_two_add _ hv]
  simp only [Nat.testBit_or, Nat.testBit_and, Nat.testBit_shiftLeft, Nat.testBit_two_pow_sub_one]
  by_cases hi : i < k
  · simp [hi]

  · have hv0 : v.testBit i = false :=
      Nat.testBit_lt_two_pow (lt_of_lt_of_le hv (Nat.pow_le_pow_right (by norm_num) (by omega)))
    have hd : (x / 2 ^ k).testBit (i - k) = x.testBit i := by
      rw [← Nat.shiftRight_eq_div_pow, Nat.testBit_shiftRight]
      congr 1; omega
    simp only [hi, hv0, hd, if_false, Bool.or_false]
    by_cases h64 : i < 64
    · have : i - k < 64 - k := by omega
      simp [this]; omega
    · have hx0 : x.testBit i = false :=
        Nat.testBit_lt_two_pow (lt_of_lt_of_le hx (Nat.pow_le_pow_right (by norm_num) (by omega)))
      simp [hx0]

theorem byteOf_val (v i : Nat) : (byteOf v i).val = v / 256 ^ i % 256 := rfl

/-- The bytes of a readable word. -/
theorem readWord_bytes {m : Memory} {a v : Nat} (h : readWord m a = some v) (i : Nat)
    (hi : i < 8) : m (a + i) = some (byteOf v i) := by
  unfold readWord at h
  split at h
  · rename_i b0 b1 b2 b3 b4 b5 b6 b7 h0 h1 h2 h3 h4 h5 h6 h7
    injection h with h
    have e0 := b0.isLt; have e1 := b1.isLt; have e2 := b2.isLt; have e3 := b3.isLt
    have e4 := b4.isLt; have e5 := b5.isLt; have e6 := b6.isLt; have e7 := b7.isLt
    interval_cases i
    all_goals first
      | rw [Nat.add_zero, h0] | rw [h1] | rw [h2] | rw [h3] | rw [h4] | rw [h5] | rw [h6] | rw [h7]
    all_goals
      congr 1
      apply Fin.ext
      rw [byteOf_val]
      norm_num
      omega
  · exact absurd h (by simp)

theorem readWord_of_bytes {m : Memory} {a v : Nat} (hv : v < 2 ^ 64)
    (h : ∀ i, i < 8 → m (a + i) = some (byteOf v i)) : readWord m a = some v := by
  unfold readWord
  have h0 := h 0 (by omega); rw [Nat.add_zero] at h0
  rw [h0, h 1 (by omega), h 2 (by omega), h 3 (by omega), h 4 (by omega), h 5 (by omega),
    h 6 (by omega), h 7 (by omega)]
  simp only [byteOf_val]
  congr 1
  norm_num
  omega

theorem writeWord_in (m : Memory) (a v i : Nat) (hi : i < 8) :
    writeWord m a v (a + i) = some (byteOf v i) := by
  unfold writeWord
  rw [if_pos (by omega)]
  congr 2
  omega

theorem writeWord_out (m : Memory) (a v x : Nat) (hx : ¬ (a ≤ x ∧ x < a + 8)) :
    writeWord m a v x = m x := by
  unfold writeWord
  rw [if_neg hx]

theorem readWord_writeWord (m : Memory) (a v : Nat) (hv : v < 2 ^ 64) :
    readWord (writeWord m a v) a = some v :=
  readWord_of_bytes hv (fun i hi => writeWord_in m a v i hi)

theorem writeWord_readWord {m : Memory} {a v : Nat} (h : readWord m a = some v) :
    writeWord m a v = m := by
  funext x
  by_cases hx : a ≤ x ∧ x < a + 8
  · obtain ⟨i, rfl⟩ : ∃ i, x = a + i := ⟨x - a, by omega⟩
    rw [writeWord_in m a v i (by omega), readWord_bytes h i (by omega)]
  · rw [writeWord_out m a v x hx]

theorem writeWord_writeWord (m : Memory) (a v u : Nat) :
    writeWord (writeWord m a v) a u = writeWord m a u := by
  funext x
  by_cases hx : a ≤ x ∧ x < a + 8
  · obtain ⟨i, rfl⟩ : ∃ i, x = a + i := ⟨x - a, by omega⟩
    rw [writeWord_in _ a u i (by omega), writeWord_in _ a u i (by omega)]
  · rw [writeWord_out _ a u x hx, writeWord_out _ a u x hx, writeWord_out _ a v x hx]

/-- Replacing the lowest byte of the word at `a` changes the byte at `a` only. -/
theorem writeWord_low_byte {m : Memory} {a v : Nat} (h : readWord m a = some v) (b : Nat)
    (hb : b < 256) :
    writeWord m a (v / 256 * 256 + b) = fun x => if x = a then some (Fin.ofNat b) else m x := by
  funext x
  by_cases hx : a ≤ x ∧ x < a + 8
  · obtain ⟨i, rfl⟩ : ∃ i, x = a + i := ⟨x - a, by omega⟩
    rw [writeWord_in _ a _ i (by omega)]
    by_cases h0 : i = 0
    · subst h0
      simp only [Nat.add_zero, if_true]
      congr 1
      apply Fin.ext
      rw [byteOf_val]
      show _ = b % 256
      norm_num
      omega
    · rw [if_neg (by omega), readWord_bytes h i (by omega)]
      congr 1
      apply Fin.ext
      rw [byteOf_val, byteOf_val]
      have hi : i < 8 := by omega
      interval_cases i <;> omega
  · rw [writeWord_out _ a _ x hx, if_neg (by omega)]

/-! ## What each function does when the traced process is stopped -/

/-- The word `set_breakpoint` writes for the word `v` it read. -/
theorem patched_eq (v : Nat) (hv : v < 2 ^ 64) :
    (v &&& not64 0xff) ||| 0xcc = v / 256 * 256 + 0xcc := by
  have h := mask_or 8 v 0xcc (by norm_num) (by norm_num)
  rw [Nat.mod_eq_of_lt hv] at h
  exact h

theorem set_breakpoint_stopped (w : World) (t : Tracee) (pid : Int) (a v : Nat)
    (ht : w.tracee = some t) (hp : t.pid = pid) (hv : readWord t.mem a = some v) :
    set_breakpoint pid a w =
      (v, { w with
              tracee := some { t with mem := writeWord t.mem a (v / 256 * 256 + 0xcc) }
              trace := w.trace ++ [.peekdata pid a, .pokedata pid a (v / 256 * 256 + 0xcc)] }) := by
  have hlt := readWord_lt hv
  simp [set_breakpoint, ptrace_peekdata, ptrace_pokedata, World.target, World.log, ht, hp, hv,
    toU64_toLong v hlt, patched_eq v hlt]

theorem restore_original_stopped (w : World) (t : Tracee) (pid : Int) (a v orig : Nat)
    (ht : w.tracee = some t) (hp : t.pid = pid) (hv : readWord t.mem a = some v) :
    restore_original pid a orig w =
      { w with
          tracee := some { t with mem := writeWord t.mem a orig }
          trace := w.trace ++ [.pokedata pid a orig] } := by
  simp [restore_original, ptrace_pokedata, World.target, World.log, ht, hp, hv]

theorem rewind_rip_stopped (w : World) (t : Tracee) (pid : Int)
    (ht : w.tracee = some t) (hp : t.pid = pid) :
    rewind_rip pid w =
      { w with
          tracee := some { t with regs := { t.regs with rip := (t.regs.rip + (2 ^ 64 - 1)) % 2 ^ 64 } }
          trace := w.trace ++ [.getregs pid,
            .setregs pid { t.regs with rip := (t.regs.rip + (2 ^ 64 - 1)) % 2 ^ 64 }]
          out := w.out ++ ["%rip in target is 0x" ++ hex t.regs.rip ++ " but we want it to be 0x"
            ++ hex STACK_LOAD ++ "\n"] } := by
  simp [rewind_rip, ptrace_getregs, ptrace_setregs, World.target, World.log, printf, ht, hp]

/-- The word `set_x_in_target` writes for the word `v` it read. -/
theorem x_word_eq (v newval : Nat) (hv : v < 2 ^ 64) :
    (v &&& not64 0xffffffff) ||| (newval % 2 ^ 32) = v / 2 ^ 32 * 2 ^ 32 + newval % 2 ^ 32 := by
  have h := mask_or 32 v (newval % 2 ^ 32) (by norm_num) (Nat.mod_lt _ (by norm_num))
  rw [Nat.mod_eq_of_lt hv] at h
  exact h

theorem low32_eq (v : Nat) : v &&& 0xffffffff = v % 2 ^ 32 :=
  Nat.and_pow_two_sub_one_eq_mod v 32

theorem set_x_in_target_stopped (w : World) (t : Tracee) (pid : Int) (newval v a d : Nat)
    (ht : w.tracee = some t) (hp : t.pid = pid)
    (ha : a = (t.regs.rbp + (2 ^ 64 - 4)) % 2 ^ 64) (hv : readWord t.mem a = some v)
    (hd : d = v / 2 ^ 32 * 2 ^ 32 + newval % 2 ^ 32) :
    set_x_in_target pid newval w =
      { w with
          tracee := some { t with mem := writeWord t.mem a d }
          trace := w.trace ++ [.getregs pid, .peekdata pid a, .pokedata pid a d, .peekdata pid a]
          out := w.out ++ ["Checking: *(%rbp-4): " ++ toString (v % 2 ^ 32) ++ "\n",
            "Checking: *(%rbp-4): " ++ toString (newval % 2 ^ 32) ++ "\n"] } := by
  have hlt := readWord_lt hv
  have hd2 : d < 2 ^ 64 := by omega
  have hr := readWord_writeWord t.mem a d hd2
  have hm : d % 2 ^ 32 = newval % 2 ^ 32 := by omega
  have hw := x_word_eq v newval hlt
  rw [← hd] at hw
  have ha2 : (t.regs.rbp + 18446744073709551612) % 18446744073709551616 = a := by
    omega
  have hw2 : v &&& not64 4294967295 ||| newval % 4294967296 = d := hw
  have hm2 : d % 4294967296 = newval % 4294967296 := hm
  simp [set_x_in_target, ptrace_getregs, ptrace_peekdata, ptrace_pokedata, World.target,
    World.log, printf, ht, hp, ha2, hv, hr, toU64_toLong v hlt, toU64_toLong d hd2,
    hw2, low32_eq, hm2]

/-! ## What each call leaves alone, in every world -/

section Frame

variable (pid : Int) (a d : Nat) (r : Regs) (c : Call) (s : String) (w : World)

@[simp]
theorem log_tracee : (w.log c).tracee = w.tracee := rfl
@[simp]
theorem log_script : (w.log c).script = w.script := rfl
@[simp]
theorem log_trace : (w.log c).trace = w.trace ++ [c] := rfl
@[simp]
theorem log_out : (w.log c).out = w.out := rfl
@[simp]
theorem log_err : (w.log c).err = w.err := rfl
@[simp]
theorem log_ustatus : (w.log c).uninit_status = w.uninit_status := rfl
@[simp]
theorem log_uregs : (w.log c).uninit_regs = w.uninit_regs := rfl
@[simp]
theorem log_target : (w.log c).target pid = w.target pid := rfl

@[simp]
theorem printf_tracee : (printf s w).tracee = w.tracee := rfl
@[simp]
theorem printf_script : (printf s w).script = w.script := rfl
@[simp]
theorem printf_trace : (printf s w).trace = w.trace := rfl
@[simp]
theorem printf_out : (printf s w).out = w.out ++ [s] := rfl
@[simp]
theorem printf_err : (printf s w).err = w.err := rfl
@[simp]
theorem printf_ustatus : (printf s w).uninit_status = w.uninit_status := rfl
@[simp]
theorem printf_uregs : (printf s w).uninit_regs = w.uninit_regs := rfl
@[simp]
theorem printf_target : (printf s w).target pid = w.target pid := rfl

@[simp]
theorem perror_tracee : (perror s w).tracee = w.tracee := rfl
@[simp]
theorem perror_script : (perror s w).script = w.script := rfl
@[simp]
theorem perror_trace : (perror s w).trace = w.trace := rfl
@[simp]
theorem perror_out : (perror s w).out = w.out := rfl
@[simp]
theorem perror_err : (perror s w).err = w.err ++ [s] := rfl
@[simp]
theorem perror_ustatus : (perror s w).uninit_status = w.uninit_status := rfl
@[simp]
theorem perror_uregs : (perror s w).uninit_regs = w.uninit_regs := rfl
@[simp]
theorem perror_target : (perror s w).target pid = w.target pid := rfl

variable (b : Prop) [Decidable b]

@[simp]
theorem perrorIf_tracee : (if b then perror s w else w).tracee = w.tracee := by
  split <;> rfl
@[simp]
theorem perrorIf_script : (if b then perror s w else w).script = w.script := by
  split <;> rfl
@[simp]
theorem perrorIf_trace : (if b then perror s w else w).trace = w.trace := by
  split <;> rfl
@[simp]
theorem perrorIf_out : (if b then perror s w else w).out = w.out := by
  split <;> rfl
@[simp]
theorem perrorIf_ustatus :
    (if b then perror s w else w).uninit_status = w.uninit_status := by
  split <;> rfl
@[simp]
theorem perrorIf_uregs : (if b then perror s w else w).uninit_regs = w.uninit_regs := by
  split <;> rfl
@[simp]
theorem perrorIf_target : (if b then perror s w else w).target pid = w.target pid := by
  split <;> rfl

@[simp]
theorem peekdata_world : (ptrace_peekdata pid a w).2 = w.log (.peekdata pid a) := by
  unfold ptrace_peekdata
  split
  · split <;> rfl
  · rfl

@[simp]
theorem cont_world : (ptrace_cont pid w).2 = w.log (.cont pid) := by
  unfold ptrace_cont
  split <;> rfl

@[simp]
theorem singlestep_world : (ptrace_singlestep pid w).2 = w.log (.singlestep pid) := by
  unfold ptrace_singlestep
  split <;> rfl

@[simp]
theorem getregs_world : (ptrace_getregs pid r w).2.2 = w.log (.getregs pid) := by
  unfold ptrace_getregs
  split <;> rfl

@[simp]
theorem pokedata_script : (ptrace_pokedata pid a d w).2.script = w.script := by
  unfold ptrace_pokedata
  split
  · split <;> rfl
  · rfl
@[simp]
theorem pokedata_trace :
    (ptrace_pokedata pid a d w).2.trace = w.trace ++ [.pokedata pid a d] := by
  unfold ptrace_pokedata
  split
  · split <;> rfl
  · rfl
@[simp]
theorem pokedata_out : (ptrace_pokedata pid a d w).2.out = w.out := by
  unfold ptrace_pokedata
  split
  · split <;> rfl
  · rfl
@[simp]
theorem pokedata_err : (ptrace_pokedata pid a d w).2.err = w.err := by
  unfold ptrace_pokedata
  split
  · split <;> rfl
  · rfl
@[simp]
theorem pokedata_ustatus :
    (ptrace_pokedata pid a d w).2.uninit_status = w.uninit_status := by
  unfold ptrace_pokedata
  split
  · split <;> rfl
  · rfl
@[simp]
theorem pokedata_uregs : (ptrace_pokedata pid a d w).2.uninit_regs = w.uninit_regs := by
  unfold ptrace_pokedata
  split
  · split <;> rfl
  · rfl

@[simp]
theorem setregs_script : (ptrace_setregs pid r w).2.script = w.script := by
  unfold ptrace_setregs
  split <;> rfl
@[simp]
theorem setregs_trace :
    (ptrace_setregs pid r w).2.trace = w.trace ++ [.setregs pid r] := by
  unfold ptrace_setregs
  split <;> rfl
@[simp]
theorem setregs_out : (ptrace_setregs pid r w).2.out = w.out := by
  unfold ptrace_setregs
  split <;> rfl
@[simp]
theorem setregs_err : (ptrace_setregs pid r w).2.err = w.err := by
  unfold ptrace_setregs
  split <;> rfl
@[simp]
theorem setregs_ustatus : (ptrace_setregs pid r w).2.uninit_status = w.uninit_status := by
  unfold ptrace_setregs
  split <;> rfl
@[simp]
theorem setregs_uregs : (ptrace_setregs pid r w).2.uninit_regs = w.uninit_regs := by
  unfold ptrace_setregs
  split <;> rfl

end Frame

/-! ## The trace of each function, in every world -/

theorem set_breakpoint_trace (pid : Int) (a : Nat) (w : World) :
    (set_breakpoint pid a w).2.trace = w.trace ++ [.peekdata pid a,
      .pokedata pid a (((set_breakpoint pid a w).1 &&& not64 0xff) ||| 0xcc)] := by
  simp [set_breakpoint]

theorem set_breakpoint_script (pid : Int) (a : Nat) (w : World) :
    (set_breakpoint pid a w).2.script = w.script := by
  simp [set_breakpoint]

theorem set_breakpoint_ustatus (pid : Int) (a : Nat) (w : World) :
    (set_breakpoint pid a w).2.uninit_status = w.uninit_status := by
  simp [set_breakpoint]

theorem rewind_rip_requests (pid : Int) (w : World) :
    (rewind_rip pid w).trace.map Call.request =
      w.trace.map Call.request ++ ["PTRACE_GETREGS", "PTRACE_SETREGS"] := by
  simp [rewind_rip, Call.request]

theorem set_x_in_target_requests (pid : Int) (v : Nat) (w : World) :
    (set_x_in_target pid v w).trace.map Call.request =
      w.trace.map Call.request
        ++ ["PTRACE_GETREGS", "PTRACE_PEEKDATA", "PTRACE_POKEDATA", "PTRACE_PEEKDATA"] := by
  simp [set_x_in_target, Call.request]

theorem low8_eq (s : Nat) : s &&& 0xff = s % 2 ^ 8 :=
  Nat.and_pow_two_sub_one_eq_mod s 8

theorem low7_eq (s : Nat) : s &&& 0x7f = s % 2 ^ 7 :=
  Nat.and_pow_two_sub_one_eq_mod s 7

/-- A status cannot be both a stop and an exit. -/
theorem stopped_not_exited (s : Nat) (h : WIFSTOPPED s = true) : WIFEXITED s = false := by
  unfold WIFSTOPPED at h
  unfold WIFEXITED
  rw [low7_eq]
  rw [low8_eq] at h
  have h2 : s % 2 ^ 8 = 0x7f := by simpa using h
  simp
  omega

/-- One `waitpid` whose status breaks the loop: `wait_for_target` returns. -/
theorem wait_for_target_once (pid : Int) (w : World) (o : WaitOutcome) (rest : List WaitOutcome)
    (s : Nat) (hs : w.script = o :: rest) (ho : o.status.getD w.uninit_status = s)
    (hb : breaksLoop s = true) :
    wait_for_target pid w =
      some { w with
               tracee := o.run w.tracee
               script := rest
               trace := w.trace ++ [.waitpid pid]
               out := w.out ++ waitReport s } := by
  unfold wait_for_target
  rw [hs]
  unfold wait_loop
  simp only [ho]
  unfold breaksLoop at hb
  by_cases h1 : WIFSTOPPED s = true
  · by_cases h2 : WSTOPSIG s ≠ SIGTRAP ∧ WSTOPSIG s ≠ SIGSTOP
    · simp [h1, h2, waitReport, printf, World.log]
    · simp [h1, h2, waitReport, printf, World.log]
  · have h3 : WIFEXITED s = true := by simpa [h1] using hb
    simp [h1, h3, waitReport, printf, World.log]

/-! ## Breakpoint install and restore -/

/-- C1: when the traced process is stopped and holds the word `v` at `a`,
`set_breakpoint` followed by writing its return value back at `a` (the restore
step of `preserve_brkpoint_and_continue`) leaves the word at `a` equal to `v`
and every byte of memory as it was. -/
theorem install_restore_roundtrip (w : World) (t : Tracee) (pid : Int) (a v : Nat)
    (ht : w.tracee = some t) (hp : t.pid = pid) (hv : readWord t.mem a = some v) :
    ∃ t2 : Tracee,
      (restore_original pid a (set_breakpoint pid a w).1 (set_breakpoint pid a w).2).tracee
        = some t2 ∧
      readWord t2.mem a = some v ∧ (∀ x, t2.mem x = t.mem x) ∧ t2.regs = t.regs := by
  have hlt := readWord_lt hv
  rw [set_breakpoint_stopped w t pid a v ht hp hv]
  rw [restore_original_stopped _ { t with mem := writeWord t.mem a (v / 256 * 256 + 0xcc) } pid a
    (v / 256 * 256 + 0xcc) v rfl hp (readWord_writeWord _ _ _ (by omega))]
  refine ⟨_, rfl, ?_, ?_, rfl⟩
  · simp only [writeWord_writeWord, writeWord_readWord hv, hv]
  · intro x
    simp only [writeWord_writeWord, writeWord_readWord hv]

theorem install_restore_roundtrip_witness :
    ∃ t2 : Tracee,
      (restore_original 7 STACK_LOAD (set_breakpoint 7 STACK_LOAD demoWorld).1
        (set_breakpoint 7 STACK_LOAD demoWorld).2).tracee = some t2 ∧
      readWord t2.mem STACK_LOAD = some 0x458b48c289fc458b ∧
      (∀ x, t2.mem x = demoTracee.mem x) ∧ t2.regs = demoTracee.regs :=
  install_restore_roundtrip demoWorld demoTracee 7 STACK_LOAD 0x458b48c289fc458b rfl rfl
    (by decide)

/-- C2: when the traced process is stopped and holds the word `v` at `a`,
`set_breakpoint` returns `v`, issues exactly one `PTRACE_PEEKDATA` and then one
`PTRACE_POKEDATA` at `a`, and leaves at `a` the word whose low byte is `0xCC`
and whose bits 8..63 are those of `v`; the byte at `a` is the only byte of
memory that can differ afterwards, and the registers are untouched. -/
theorem set_breakpoint_install (w : World) (t : Tracee) (pid : Int) (a v : Nat)
    (ht : w.tracee = some t) (hp : t.pid = pid) (hv : readWord t.mem a = some v) :
    (set_breakpoint pid a w).1 = v ∧
    ∃ (p : Nat) (t2 : Tracee),
      p % 256 = 0xcc ∧ p / 256 = v / 256 ∧
      (set_breakpoint pid a w).2.trace = w.trace ++ [.peekdata pid a, .pokedata pid a p] ∧
      (set_breakpoint pid a w).2.tracee = some t2 ∧
      readWord t2.mem a = some p ∧
      t2.mem a = some 0xcc ∧ (∀ x, x ≠ a → t2.mem x = t.mem x) ∧ t2.regs = t.regs ∧
      (set_breakpoint pid a w).2.err = w.err := by
  have hlt := readWord_lt hv
  rw [set_breakpoint_stopped w t pid a v ht hp hv]
  refine ⟨rfl, v / 256 * 256 + 0xcc, _, by omega, by omega, rfl, rfl, ?_, ?_, ?_, rfl, rfl⟩
  · exact readWord_writeWord _ _ _ (by omega)
  · simp only [writeWord_low_byte hv 0xcc (by norm_num)]
    simp
    rfl
  · intro x hx
    simp only [writeWord_low_byte hv 0xcc (by norm_num)]
    simp [hx]

theorem set_breakpoint_install_witness :
    (set_breakpoint 7 STACK_LOAD demoWorld).1 = 0x458b48c289fc458b ∧
    ∃ (p : Nat) (t2 : Tracee),
      p % 256 = 0xcc ∧ p / 256 = 0x458b48c289fc458b / 256 ∧
      (set_breakpoint 7 STACK_LOAD demoWorld).2.trace
        = demoWorld.trace ++ [.peekdata 7 STACK_LOAD, .pokedata 7 STACK_LOAD p] ∧
      (set_breakpoint 7 STACK_LOAD demoWorld).2.tracee = some t2 ∧
      readWord t2.mem STACK_LOAD = some p ∧
      t2.mem STACK_LOAD = some 0xcc ∧ (∀ x, x ≠ STACK_LOAD → t2.mem x = demoTracee.mem x) ∧
      t2.regs = demoTracee.regs ∧
      (set_breakpoint 7 STACK_LOAD demoWorld).2.err = demoWorld.err :=
  set_breakpoint_install demoWorld demoTracee 7 STACK_LOAD 0x458b48c289fc458b rfl rfl
    (by decide)

/-- C10: when the traced process is stopped and holds the word `v` at `a`, a
second `set_breakpoint` at `a` right after a first one returns the patched word
(`v` with its low byte replaced by `0xCC`), leaves the traced process as the
first install left it, and its return value equals `v` if and only if the low
byte of `v` is already `0xCC`. -/
theorem second_install_returns_patched (w : World) (t : Tracee) (pid : Int) (a v : Nat)
    (ht : w.tracee = some t) (hp : t.pid = pid) (hv : readWord t.mem a = some v) :
    (set_breakpoint pid a (set_breakpoint pid a w).2).1 = v / 256 * 256 + 0xcc ∧
    (set_breakpoint pid a (set_breakpoint pid a w).2).2.tracee
      = (set_breakpoint pid a w).2.tracee ∧
    (set_breakpoint pid a (set_breakpoint pid a w).2).2.trace
      = (set_breakpoint pid a w).2.trace
        ++ [.peekdata pid a, .pokedata pid a (v / 256 * 256 + 0xcc)] ∧
    ((set_breakpoint pid a (set_breakpoint pid a w).2).1 = v ↔ v % 256 = 0xcc) := by
  have hlt := readWord_lt hv
  have hp2 : (v / 256 * 256 + 0xcc) / 256 * 256 + 0xcc = v / 256 * 256 + 0xcc := by omega
  rw [set_breakpoint_stopped w t pid a v ht hp hv]
  rw [set_breakpoint_stopped _ { t with mem := writeWord t.mem a (v / 256 * 256 + 0xcc) } pid a
    (v / 256 * 256 + 0xcc) rfl hp (readWord_writeWord _ _ _ (by omega))]
  refine ⟨rfl, ?_, ?_, ?_⟩
  · simp only [hp2, writeWord_writeWord]
  · simp only [hp2]
  · show v / 256 * 256 + 0xcc = v ↔ v % 256 = 0xcc
    omega

theorem second_install_returns_patched_witness :
    (set_breakpoint 7 STACK_LOAD (set_breakpoint 7 STACK_LOAD demoWorld).2).1
      = 0x458b48c289fc458b / 256 * 256 + 0xcc ∧
    (set_breakpoint 7 STACK_LOAD (set_breakpoint 7 STACK_LOAD demoWorld).2).2.tracee
      = (set_breakpoint 7 STACK_LOAD demoWorld).2.tracee ∧
    (set_breakpoint 7 STACK_LOAD (set_breakpoint 7 STACK_LOAD demoWorld).2).2.trace
      = (set_breakpoint 7 STACK_LOAD demoWorld).2.trace
        ++ [.peekdata 7 STACK_LOAD,
            .pokedata 7 STACK_LOAD (0x458b48c289fc458b / 256 * 256 + 0xcc)] ∧
    ((set_breakpoint 7 STACK_LOAD (set_breakpoint 7 STACK_LOAD demoWorld).2).1
      = 0x458b48c289fc458b ↔ 0x458b48c289fc458b % 256 = 0xcc) :=
  second_install_returns_patched demoWorld demoTracee 7 STACK_LOAD 0x458b48c289fc458b rfl rfl
    (by decide)

/-! ## Patching `x` -/

/-- The four bytes above the 32-bit slot keep their value when the slot is
overwritten through a 64-bit write. -/
theorem writeWord_low32 {m : Memory} {a v : Nat} (h : readWord m a = some v) (n x : Nat)
    (hn : n < 2 ^ 32) (hx : ¬ (a ≤ x ∧ x < a + 4)) :
    writeWord m a (v / 2 ^ 32 * 2 ^ 32 + n) x = m x := by
  by_cases hx8 : a ≤ x ∧ x < a + 8
  · obtain ⟨i, rfl⟩ : ∃ i, x = a + i := ⟨x - a, by omega⟩
    rw [writeWord_in _ a _ i (by omega), readWord_bytes h i (by omega)]
    congr 1
    apply Fin.ext
    rw [byteOf_val, byteOf_val]
    have hi : 4 ≤ i ∧ i < 8 := by omega
    obtain ⟨hi1, hi2⟩ := hi
    interval_cases i <;> omega
  · rw [writeWord_out _ a _ x hx8]

/-- C3: when the traced process is stopped and holds the word `v` at
`a = rbp - 4`, `set_x_in_target` with a 32-bit value `newval` writes back at
`a` a word `d` whose low 32 bits are `newval` and whose high 32 bits are those
of `v`; no byte outside the four bytes of the slot changes; and `v = 0xA`,
`newval = 202` gives `d = 0xCA`. -/
theorem set_x_in_target_isolation (w : World) (t : Tracee) (pid : Int) (newval v a : Nat)
    (ht : w.tracee = some t) (hp : t.pid = pid)
    (ha : a = (t.regs.rbp + (2 ^ 64 - 4)) % 2 ^ 64) (hv : readWord t.mem a = some v)
    (hn : newval < 2 ^ 32) :
    ∃ (d : Nat) (t2 : Tracee),
      d % 2 ^ 32 = newval ∧ d / 2 ^ 32 = v / 2 ^ 32 ∧
      (set_x_in_target pid newval w).trace
        = w.trace ++ [.getregs pid, .peekdata pid a, .pokedata pid a d, .peekdata pid a] ∧
      (set_x_in_target pid newval w).tracee = some t2 ∧
      readWord t2.mem a = some d ∧
      (∀ x, ¬ (a ≤ x ∧ x < a + 4) → t2.mem x = t.mem x) ∧
      t2.regs = t.regs ∧
      (v = 0xA → newval = 202 → d = 0xCA) := by
  have hlt := readWord_lt hv
  have hm : newval % 2 ^ 32 = newval := Nat.mod_eq_of_lt hn
  rw [set_x_in_target_stopped w t pid newval v a (v / 2 ^ 32 * 2 ^ 32 + newval) ht hp ha hv
    (by rw [hm])]
  refine ⟨v / 2 ^ 32 * 2 ^ 32 + newval, _, by omega, by omega, rfl, rfl, ?_, ?_, rfl, ?_⟩
  · exact readWord_writeWord _ _ _ (by omega)
  · intro x hx
    exact writeWord_low32 hv newval x hn hx
  · intro h1 h2
    subst h1 h2
    rfl

theorem set_x_in_target_isolation_witness :
    ∃ (d : Nat) (t2 : Tracee),
      d % 2 ^ 32 = 202 ∧ d / 2 ^ 32 = 0xA / 2 ^ 32 ∧
      (set_x_in_target 7 202 demoWorld).trace
        = demoWorld.trace ++ [.getregs 7, .peekdata 7 0x7ffd0ffc, .pokedata 7 0x7ffd0ffc d,
            .peekdata 7 0x7ffd0ffc] ∧
      (set_x_in_target 7 202 demoWorld).tracee = some t2 ∧
      readWord t2.mem 0x7ffd0ffc = some d ∧
      (∀ x, ¬ (0x7ffd0ffc ≤ x ∧ x < 0x7ffd0ffc + 4) → t2.mem x = demoTracee.mem x) ∧
      t2.regs = demoTracee.regs ∧
      (0xA = 0xA → 202 = 202 → d = 0xCA) :=
  set_x_in_target_isolation demoWorld demoTracee 7 202 0xA 0x7ffd0ffc rfl rfl (by decide)
    (by decide) (by decide)

/-! ## Rewinding the instruction pointer -/

/-- C4: when the traced process is stopped, `rewind_rip` reads the registers
and writes back the same register set with `rip` decremented by one modulo
`2^64`, every other register unchanged; when the `rip` read is `A + 1` the
`rip` written is exactly `A`. -/
theorem rewind_rip_exact (w : World) (t : Tracee) (pid : Int)
    (ht : w.tracee = some t) (hp : t.pid = pid) (hr : t.regs.rip < 2 ^ 64) :
    ∃ regs2 : Regs,
      (rewind_rip pid w).trace = w.trace ++ [.getregs pid, .setregs pid regs2] ∧
      (rewind_rip pid w).tracee = some { t with regs := regs2 } ∧
      regs2 = { t.regs with rip := regs2.rip } ∧
      (regs2.rip : Int) = ((t.regs.rip : Int) - 1) % 2 ^ 64 ∧
      (∀ A : Nat, t.regs.rip = A + 1 → regs2.rip = A) := by
  rw [rewind_rip_stopped w t pid ht hp]
  refine ⟨_, rfl, rfl, rfl, ?_, ?_⟩
  · show (((t.regs.rip + (2 ^ 64 - 1)) % 2 ^ 64 : Nat) : Int) = _
    omega
  · intro A hA
    show (t.regs.rip + (2 ^ 64 - 1)) % 2 ^ 64 = A
    omega

theorem rewind_rip_exact_witness :
    ∃ regs2 : Regs,
      (rewind_rip 7 demoWorld).trace = demoWorld.trace ++ [.getregs 7, .setregs 7 regs2] ∧
      (rewind_rip 7 demoWorld).tracee = some { demoTracee with regs := regs2 } ∧
      regs2 = { demoTracee.regs with rip := regs2.rip } ∧
      (regs2.rip : Int) = ((demoTracee.regs.rip : Int) - 1) % 2 ^ 64 ∧
      (∀ A : Nat, demoTracee.regs.rip = A + 1 → regs2.rip = A) :=
  rewind_rip_exact demoWorld demoTracee 7 rfl rfl (by decide)

/-! ## Classifying a stop -/

theorem singlestep_ret (pid : Int) (w : World) :
    (ptrace_singlestep pid w).1 = if (w.target pid).isNone then -1 else 0 := by
  unfold ptrace_singlestep
  split <;> simp [*]

theorem cont_ret (pid : Int) (w : World) :
    (ptrace_cont pid w).1 = if (w.target pid).isNone then -1 else 0 := by
  unfold ptrace_cont
  split <;> simp [*]

/-- A `single_step` whose wait breaks the loop at the first `waitpid`. -/
theorem single_step_once (pid : Int) (w : World) (o : WaitOutcome) (rest : List WaitOutcome)
    (s : Nat) (hs : w.script = o :: rest) (ho : o.status.getD w.uninit_status = s)
    (hb : breaksLoop s = true) :
    ∃ w2 : World,
      single_step pid w = some w2 ∧
      w2.trace = w.trace ++ [.singlestep pid, .waitpid pid] ∧ w2.script = rest ∧
      w2.tracee = o.run w.tracee ∧ w2.uninit_status = w.uninit_status ∧
      w2.uninit_regs = w.uninit_regs ∧ w2.out = w.out ++ waitReport s ∧
      w2.err = w.err ++ (if (w.target pid).isNone then ["ptrace singlestep"] else []) := by
  unfold single_step
  simp only []
  rw [wait_for_target_once pid _ o rest s (by simpa using hs) (by simpa using ho) hb]
  refine ⟨_, rfl, by simp, rfl, by simp, by simp, by simp, by simp, ?_⟩
  simp only [singlestep_ret, singlestep_world]
  cases h : (w.target pid).isNone <;> simp

/-- A `continue_on` whose wait breaks the loop at the first `waitpid`. -/
theorem continue_on_once (pid : Int) (w : World) (o : WaitOutcome) (rest : List WaitOutcome)
    (s : Nat) (hs : w.script = o :: rest) (ho : o.status.getD w.uninit_status = s)
    (hb : breaksLoop s = true) :
    ∃ w2 : World,
      continue_on pid w = some w2 ∧
      w2.trace = w.trace ++ [.cont pid, .waitpid pid] ∧ w2.script = rest ∧
      w2.tracee = o.run w.tracee ∧ w2.uninit_status = w.uninit_status ∧
      w2.uninit_regs = w.uninit_regs ∧ w2.out = w.out ++ waitReport s ∧
      w2.err = w.err ++ (if (w.target pid).isNone then ["ptrace continue"] else []) := by
  unfold continue_on
  simp only []
  rw [wait_for_target_once pid _ o rest s (by simpa using hs) (by simpa using ho) hb]
  refine ⟨_, rfl, by simp, rfl, by simp, by simp, by simp, by simp, ?_⟩
  simp only [cont_ret, cont_world]
  cases h : (w.target pid).isNone <;> simp

/-- The word `set_breakpoint` writes always has the trap opcode as low byte. -/
theorem patched_low_byte (x : Int) : ((toU64 x &&& not64 0xff) ||| 0xcc) % 256 = 0xcc := by
  rw [patched_eq _ (toU64_lt x)]
  omega

theorem set_breakpoint_ret (pid : Int) (a : Nat) (w : World) :
    (set_breakpoint pid a w).1 = toU64 (ptrace_peekdata pid a w).1 := rfl

/-! ## Stepping over the breakpoint -/

/-- The world in which `preserve_brkpoint_and_continue` calls `single_step`. -/
theorem preserve_unfold (pid : Int) (a orig : Nat) (w : World) :
    preserve_brkpoint_and_continue pid a orig w =
      (single_step pid (rewind_rip pid (restore_original pid a orig w))).bind
        (fun w3 => continue_on pid (set_breakpoint pid a w3).2) := by
  unfold preserve_brkpoint_and_continue
  simp only []
  cases single_step pid (rewind_rip pid (restore_original pid a orig w)) <;> rfl

/-- However many `waitpid` calls the loop takes, it adds nothing but `waitpid`
calls to the trace. -/
theorem wait_loop_shape (pid : Int) (script : List WaitOutcome) :
    ∀ (status : Nat) (w w2 : World), wait_loop pid script status w = some w2 →
      ∃ k : Nat, 0 < k ∧ w2.trace = w.trace ++ List.replicate k (.waitpid pid) := by
  induction script with
  | nil =>
    intro status w w2 h
    simp [wait_loop] at h
  | cons o rest ih =>
    intro status w w2 h
    unfold wait_loop at h
    simp only [] at h
    split at h
    · refine ⟨1, by omega, ?_⟩
      split at h <;> (cases h; simp)
    · split at h
      · refine ⟨1, by omega, ?_⟩
        cases h
        simp
      · obtain ⟨k, -, hk⟩ := ih _ _ _ h
        refine ⟨k + 1, by omega, ?_⟩
        rw [hk, List.replicate_succ]
        simp

theorem single_step_shape (pid : Int) (w w2 : World) (h : single_step pid w = some w2) :
    ∃ k : Nat, 0 < k ∧
      w2.trace = w.trace ++ [.singlestep pid] ++ List.replicate k (.waitpid pid) := by
  unfold single_step wait_for_target at h
  obtain ⟨k, hk, e⟩ := wait_loop_shape pid _ _ _ _ h
  exact ⟨k, hk, by simpa using e⟩

theorem continue_on_shape (pid : Int) (w w2 : World) (h : continue_on pid w = some w2) :
    ∃ k : Nat, 0 < k ∧
      w2.trace = w.trace ++ [.cont pid] ++ List.replicate k (.waitpid pid) := by
  unfold continue_on wait_for_target at h
  obtain ⟨k, hk, e⟩ := wait_loop_shape pid _ _ _ _ h
  exact ⟨k, hk, by simpa using e⟩

/-- C6: when the traced process is stopped with the word at `a` mapped,
`preserve_brkpoint_and_continue` hands to `single_step` a world that holds
`orig` at `a`, and whenever it returns it has issued exactly, in this order:
the write of `orig` at `a`, `PTRACE_GETREGS`, `PTRACE_SETREGS` with `rip`
decremented by one, `PTRACE_SINGLESTEP`, the `waitpid` calls of the first wait,
`PTRACE_PEEKDATA` at `a`, `PTRACE_POKEDATA` at `a` of a word with low byte
`0xCC`, `PTRACE_CONT`, the `waitpid` calls of the second wait.  When each wait
breaks at its first `waitpid` it does return, with one `waitpid` per wait, and
the word re-installed is the word then at `a` with its low byte replaced. -/
theorem preserve_brkpoint_order (w : World) (t : Tracee) (pid : Int) (a v orig : Nat)
    (ht : w.tracee = some t) (hp : t.pid = pid) (hv : readWord t.mem a = some v)
    (horig : orig < 2 ^ 64) :
    ∃ t0 : Tracee,
      (rewind_rip pid (restore_original pid a orig w)).tracee = some t0 ∧
      readWord t0.mem a = some orig ∧
      preserve_brkpoint_and_continue pid a orig w =
        (single_step pid (rewind_rip pid (restore_original pid a orig w))).bind
          (fun w3 => continue_on pid (set_breakpoint pid a w3).2) ∧
      (∀ w2 : World, preserve_brkpoint_and_continue pid a orig w = some w2 →
        ∃ k1 k2 d : Nat, 0 < k1 ∧ 0 < k2 ∧ d % 256 = 0xcc ∧
          w2.trace = w.trace ++ [.pokedata pid a orig, .getregs pid,
            .setregs pid { t.regs with rip := (t.regs.rip + (2 ^ 64 - 1)) % 2 ^ 64 },
            .singlestep pid] ++ List.replicate k1 (.waitpid pid) ++
            [.peekdata pid a, .pokedata pid a d, .cont pid] ++
            List.replicate k2 (.waitpid pid)) ∧
      (∀ (o1 o2 : WaitOutcome) (rest : List WaitOutcome), w.script = o1 :: o2 :: rest →
        breaksLoop (o1.status.getD w.uninit_status) = true →
        breaksLoop (o2.status.getD w.uninit_status) = true →
        ∃ (w2 : World) (d : Nat),
          preserve_brkpoint_and_continue pid a orig w = some w2 ∧
          w2.trace = w.trace ++ [.pokedata pid a orig, .getregs pid,
            .setregs pid { t.regs with rip := (t.regs.rip + (2 ^ 64 - 1)) % 2 ^ 64 },
            .singlestep pid, .waitpid pid, .peekdata pid a, .pokedata pid a d,
            .cont pid, .waitpid pid] ∧
          d % 256 = 0xcc ∧
          (∀ (t1 : Tracee) (v1 : Nat), o1.run (some t0) = some t1 → t1.pid = pid →
            readWord t1.mem a = some v1 → d / 256 = v1 / 256) ∧
          w2.script = rest) := by
  have hpre : rewind_rip pid (restore_original pid a orig w) =
      { w with
          tracee := some { t with
            mem := writeWord t.mem a orig
            regs := { t.regs with rip := (t.regs.rip + (2 ^ 64 - 1)) % 2 ^ 64 } }
          trace := w.trace ++ [.pokedata pid a orig, .getregs pid,
            .setregs pid { t.regs with rip := (t.regs.rip + (2 ^ 64 - 1)) % 2 ^ 64 }]
          out := w.out ++ ["%rip in target is 0x" ++ hex t.regs.rip
            ++ " but we want it to be 0x" ++ hex STACK_LOAD ++ "\n"] } := by
    rw [restore_original_stopped w t pid a v orig ht hp hv]
    rw [rewind_rip_stopped _ { t with mem := writeWord t.mem a orig } pid rfl hp]
    simp
  refine ⟨{ t with
      mem := writeWord t.mem a orig
      regs := { t.regs with rip := (t.regs.rip + (2 ^ 64 - 1)) % 2 ^ 64 } },
    by rw [hpre], readWord_writeWord _ _ _ horig, preserve_unfold pid a orig w, ?_, ?_⟩
  · intro w2 h
    rw [preserve_unfold] at h
    cases h3 : single_step pid (rewind_rip pid (restore_original pid a orig w)) with
    | none => rw [h3] at h; exact absurd h (by simp)
    | some w3 =>
      rw [h3] at h
      obtain ⟨k1, hk1, tr3⟩ := single_step_shape pid _ w3 h3
      obtain ⟨k2, hk2, tr4⟩ := continue_on_shape pid _ w2 h
      refine ⟨k1, k2, ((set_breakpoint pid a w3).1 &&& not64 0xff) ||| 0xcc, hk1, hk2, ?_, ?_⟩
      · rw [set_breakpoint_ret]
        exact patched_low_byte _
      · rw [tr4, set_breakpoint_trace, tr3, hpre]
        simp
  · intro o1 o2 rest hs hb1 hb2
    obtain ⟨w3, e3, tr3, sc3, tc3, us3, -, -, -⟩ :=
      single_step_once pid (rewind_rip pid (restore_original pid a orig w)) o1 (o2 :: rest) _
        (by rw [hpre]; exact hs) (by rw [hpre]) hb1
    rw [hpre] at us3
    obtain ⟨w4, e4, tr4, sc4, -, -, -, -, -⟩ :=
      continue_on_once pid (set_breakpoint pid a w3).2 o2 rest _
        (by rw [set_breakpoint_script, sc3]) (by rw [set_breakpoint_ustatus, us3]) hb2
    refine ⟨w4, ((set_breakpoint pid a w3).1 &&& not64 0xff) ||| 0xcc, ?_, ?_, ?_, ?_, sc4⟩
    · rw [preserve_unfold, e3]
      exact e4
    · rw [tr4, set_breakpoint_trace, tr3, hpre]
      simp
    · rw [set_breakpoint_ret]
      exact patched_low_byte _
    · intro t1 v1 ht1 hp1 hv1
      rw [set_breakpoint_stopped w3 t1 pid a v1 (by rw [tc3, hpre]; exact ht1) hp1 hv1]
      have hlt := readWord_lt hv1
      rw [patched_eq v1 hlt]
      omega

theorem preserve_brkpoint_order_witness :
    ∃ t0 : Tracee,
      (rewind_rip 7 (restore_original 7 STACK_LOAD 0x458b48c289fc458b armedWorld)).tracee
        = some t0 ∧
      readWord t0.mem STACK_LOAD = some 0x458b48c289fc458b ∧
      preserve_brkpoint_and_continue 7 STACK_LOAD 0x458b48c289fc458b armedWorld =
        (single_step 7 (rewind_rip 7
          (restore_original 7 STACK_LOAD 0x458b48c289fc458b armedWorld))).bind
          (fun w3 => continue_on 7 (set_breakpoint 7 STACK_LOAD w3).2) ∧
      (∀ w2 : World,
        preserve_brkpoint_and_continue 7 STACK_LOAD 0x458b48c289fc458b armedWorld = some w2 →
        ∃ k1 k2 d : Nat, 0 < k1 ∧ 0 < k2 ∧ d % 256 = 0xcc ∧
          w2.trace = armedWorld.trace ++ [.pokedata 7 STACK_LOAD 0x458b48c289fc458b, .getregs 7,
            .setregs 7
              { demoTracee.regs with rip := (demoTracee.regs.rip + (2 ^ 64 - 1)) % 2 ^ 64 },
            .singlestep 7] ++ List.replicate k1 (.waitpid 7) ++
            [.peekdata 7 STACK_LOAD, .pokedata 7 STACK_LOAD d, .cont 7] ++
            List.replicate k2 (.waitpid 7)) ∧
      (∀ (o1 o2 : WaitOutcome) (rest : List WaitOutcome),
        armedWorld.script = o1 :: o2 :: rest →
        breaksLoop (o1.status.getD armedWorld.uninit_status) = true →
        breaksLoop (o2.status.getD armedWorld.uninit_status) = true →
        ∃ (w2 : World) (d : Nat),
          preserve_brkpoint_and_continue 7 STACK_LOAD 0x458b48c289fc458b armedWorld
            = some w2 ∧
          w2.trace = armedWorld.trace ++ [.pokedata 7 STACK_LOAD 0x458b48c289fc458b, .getregs 7,
            .setregs 7
              { demoTracee.regs with rip := (demoTracee.regs.rip + (2 ^ 64 - 1)) % 2 ^ 64 },
            .singlestep 7, .waitpid 7, .peekdata 7 STACK_LOAD, .pokedata 7 STACK_LOAD d,
            .cont 7, .waitpid 7] ∧
          d % 256 = 0xcc ∧
          (∀ (t1 : Tracee) (v1 : Nat), o1.run (some t0) = some t1 → t1.pid = 7 →
            readWord t1.mem STACK_LOAD = some v1 → d / 256 = v1 / 256) ∧
          w2.script = rest) :=
  preserve_brkpoint_order armedWorld
    { demoTracee with mem := writeWord demoMem STACK_LOAD 0x458b48c289fc45cc } 7 STACK_LOAD
    0x458b48c289fc45cc 0x458b48c289fc458b rfl rfl (by decide) (by decide)

/-! ## What each function does when no traced process answers -/

theorem peekdata_gone (pid : Int) (a : Nat) (w : World) (h : w.target pid = none) :
    ptrace_peekdata pid a w = (-1, w.log (.peekdata pid a)) := by
  simp [ptrace_peekdata, h]

theorem pokedata_gone (pid : Int) (a d : Nat) (w : World) (h : w.target pid = none) :
    ptrace_pokedata pid a d w = (-1, w.log (.pokedata pid a d)) := by
  simp [ptrace_pokedata, h]

theorem getregs_gone (pid : Int) (r : Regs) (w : World) (h : w.target pid = none) :
    ptrace_getregs pid r w = (-1, r, w.log (.getregs pid)) := by
  simp [ptrace_getregs, h]

theorem setregs_gone (pid : Int) (r : Regs) (w : World) (h : w.target pid = none) :
    ptrace_setregs pid r w = (-1, w.log (.setregs pid r)) := by
  simp [ptrace_setregs, h]

theorem set_breakpoint_gone (pid : Int) (a : Nat) (w : World) (h : w.target pid = none) :
    set_breakpoint pid a w =
      (2 ^ 64 - 1, { w with
        trace := w.trace ++ [.peekdata pid a, .pokedata pid a 0xffffffffffffffcc]
        err := w.err ++ ["ptrace pokedata"] }) := by
  unfold set_breakpoint
  simp only [peekdata_gone pid a w h]
  rw [pokedata_gone pid a _ _ (by simpa using h)]
  have hw : (18446744073709551615 &&& not64 255) ||| 204 = 18446744073709551564 := by decide
  simp [perror, World.log, toU64_neg_one, hw]

theorem restore_original_gone (pid : Int) (a orig : Nat) (w : World) (h : w.target pid = none) :
    restore_original pid a orig w =
      { w with
          trace := w.trace ++ [.pokedata pid a orig]
          err := w.err ++ ["ptrace pokedata"] } := by
  unfold restore_original
  simp only [pokedata_gone pid a orig w h]
  simp [perror, World.log]

theorem rewind_rip_gone (pid : Int) (w : World) (h : w.target pid = none) :
    rewind_rip pid w =
      { w with
          trace := w.trace ++ [.getregs pid,
            .setregs pid { w.uninit_regs with rip := (w.uninit_regs.rip + (2 ^ 64 - 1)) % 2 ^ 64 }]
          out := w.out ++ ["%rip in target is 0x" ++ hex w.uninit_regs.rip
            ++ " but we want it to be 0x" ++ hex STACK_LOAD ++ "\n"]
          err := w.err ++ ["ptrace getregs", "ptrace setregs"] } := by
  unfold rewind_rip
  simp only [getregs_gone pid _ w h]
  rw [setregs_gone pid _ _ (by simpa using h)]
  simp [perror, printf, World.log]

theorem set_x_in_target_gone (pid : Int) (newval : Nat) (w : World) (h : w.target pid = none) :
    (set_x_in_target pid newval w).trace.map Call.request =
        w.trace.map Call.request
          ++ ["PTRACE_GETREGS", "PTRACE_PEEKDATA", "PTRACE_POKEDATA", "PTRACE_PEEKDATA"] ∧
      (set_x_in_target pid newval w).err = w.err ++ ["ptrace getregs", "ptrace pokedata"] ∧
      (set_x_in_target pid newval w).tracee = w.tracee := by
  refine ⟨set_x_in_target_requests pid newval w, ?_, ?_⟩
  · unfold set_x_in_target
    simp only [getregs_gone pid _ w h]
    simp only [peekdata_world]
    rw [pokedata_gone pid _ _ _ (by simpa using h)]
    simp
  · unfold set_x_in_target
    simp only [getregs_gone pid _ w h]
    simp only [peekdata_world]
    rw [pokedata_gone pid _ _ _ (by simpa using h)]
    simp

/-! ## The requests of a whole run -/

/-- C7, as the code has it: when `wait_for_target` has observed the exit of the
traced process (an exit status, and no process left in a ptrace-stop), the
debugger keeps no record of it.  `set_breakpoint`, the restore write,
`rewind_rip` and `set_x_in_target` each still issue their `ptrace` requests;
the failing `PTRACE_POKEDATA`, `PTRACE_GETREGS` and `PTRACE_SETREGS` are handed
to `perror` and the function goes on. -/
theorem post_exit_operations_call_ptrace (pid : Int) (w : World) (o : WaitOutcome)
    (rest : List WaitOutcome) (s a orig newval : Nat)
    (hs : w.script = o :: rest) (ho : o.status = some s) (he : WIFEXITED s = true)
    (hg : o.run w.tracee = none) :
    ∃ w1 : World,
      wait_for_target pid w = some w1 ∧ w1.out = w.out ++ ["target exited\n"] ∧
      (set_breakpoint pid a w1).2.trace
        = w1.trace ++ [.peekdata pid a, .pokedata pid a 0xffffffffffffffcc] ∧
      (set_breakpoint pid a w1).2.err = w1.err ++ ["ptrace pokedata"] ∧
      (restore_original pid a orig w1).trace = w1.trace ++ [.pokedata pid a orig] ∧
      (restore_original pid a orig w1).err = w1.err ++ ["ptrace pokedata"] ∧
      (rewind_rip pid w1).trace.map Call.request
        = w1.trace.map Call.request ++ ["PTRACE_GETREGS", "PTRACE_SETREGS"] ∧
      (rewind_rip pid w1).err = w1.err ++ ["ptrace getregs", "ptrace setregs"] ∧
      (set_x_in_target pid newval w1).trace.map Call.request
        = w1.trace.map Call.request
          ++ ["PTRACE_GETREGS", "PTRACE_PEEKDATA", "PTRACE_POKEDATA", "PTRACE_PEEKDATA"] ∧
      (set_x_in_target pid newval w1).err = w1.err ++ ["ptrace getregs", "ptrace pokedata"] := by
  have hb : breaksLoop s = true := by
    unfold breaksLoop
    simp [he]
  have hns : ¬ (WIFSTOPPED s = true) := by
    intro h2
    rw [stopped_not_exited s h2] at he
    exact absurd he (by simp)
  have e1 := wait_for_target_once pid w o rest s hs (by rw [ho]; rfl) hb
  generalize hw1 : ({ w with
    tracee := o.run w.tracee
    script := rest
    trace := w.trace ++ [.waitpid pid]
    out := w.out ++ waitReport s } : World) = w1 at e1
  have tc1 : w1.target pid = none := by
    rw [← hw1]
    simp [World.target, hg]
  have ou1 : w1.out = w.out ++ ["target exited\n"] := by
    rw [← hw1]
    simp [waitReport, hns]
  obtain ⟨hx1, hx2, -⟩ := set_x_in_target_gone pid newval w1 tc1
  refine ⟨w1, e1, ou1, ?_, ?_, ?_, ?_, rewind_rip_requests pid w1, ?_, hx1, hx2⟩
  · rw [set_breakpoint_gone pid a w1 tc1]
  · rw [set_breakpoint_gone pid a w1 tc1]
  · rw [restore_original_gone pid a orig w1 tc1]
  · rw [restore_original_gone pid a orig w1 tc1]
  · rw [rewind_rip_gone pid w1 tc1]

theorem post_exit_operations_call_ptrace_witness :
    ∃ w1 : World,
      wait_for_target 7 exitedWorld = some w1 ∧
      w1.out = exitedWorld.out ++ ["target exited\n"] ∧
      (set_breakpoint 7 STACK_LOAD w1).2.trace
        = w1.trace ++ [.peekdata 7 STACK_LOAD, .pokedata 7 STACK_LOAD 0xffffffffffffffcc] ∧
      (set_breakpoint 7 STACK_LOAD w1).2.err = w1.err ++ ["ptrace pokedata"] ∧
      (restore_original 7 STACK_LOAD 0x458b48c289fc458b w1).trace
        = w1.trace ++ [.pokedata 7 STACK_LOAD 0x458b48c289fc458b] ∧
      (restore_original 7 STACK_LOAD 0x458b48c289fc458b w1).err
        = w1.err ++ ["ptrace pokedata"] ∧
      (rewind_rip 7 w1).trace.map Call.request
        = w1.trace.map Call.request ++ ["PTRACE_GETREGS", "PTRACE_SETREGS"] ∧
      (rewind_rip 7 w1).err = w1.err ++ ["ptrace getregs", "ptrace setregs"] ∧
      (set_x_in_target 7 202 w1).trace.map Call.request
        = w1.trace.map Call.request
          ++ ["PTRACE_GETREGS", "PTRACE_PEEKDATA", "PTRACE_POKEDATA", "PTRACE_PEEKDATA"] ∧
      (set_x_in_target 7 202 w1).err = w1.err ++ ["ptrace getregs", "ptrace pokedata"] :=
  post_exit_operations_call_ptrace 7 exitedWorld exits [] statusExit0 STACK_LOAD
    0x458b48c289fc458b 202 rfl rfl (by decide) rfl

/-- C7, as stated, fails: in `exitedWorld` `wait_for_target` observes the exit
of process 7 and prints "target exited", no traced process is left, and the
`set_breakpoint` that follows, as in `main`, still issues `PTRACE_PEEKDATA` and
`PTRACE_POKEDATA`. -/
theorem post_exit_guard_counterexample :
    ∃ w1 : World,
      wait_for_target 7 exitedWorld = some w1 ∧ w1.out = ["target exited\n"] ∧
      w1.tracee.isNone = true ∧
      (set_breakpoint 7 STACK_LOAD w1).2.trace
        = [.waitpid 7, .peekdata 7 STACK_LOAD, .pokedata 7 STACK_LOAD 0xffffffffffffffcc] :=
  ⟨_, rfl, rfl, rfl, rfl⟩

end Debugger
